import Mathlib

/-!
# Verification of the indexedRAG desktop application (src/main.rs)

A shallow embedding of the indexedRAG application: a desktop chat-style
front-end that persists one `Conversation` and one `AppSettings` record in a
SQLite database (two tables, list-valued fields JSON-encoded into TEXT
columns) and renders them with egui.

The embedding follows `src/main.rs`:
* `Message`, `Conversation`, `AppSettings` mirror the Rust structs.
* JSON serialization of `Vec<String>` and `Vec<Message>` by `serde_json`
  (compact output, the escaping rules of serde_json's string serializer) is
  modelled by the `encStringList` / `encodeMessages` encoders, and
  `serde_json::from_str` for those two types by the `decStringList` /
  `decodeMessages` parsers (which parse the canonical compact form these
  encoders emit; any input they reject corresponds to a `serde_json` error).
* The SQLite tables are lists of rows; `CREATE TABLE IF NOT EXISTS`,
  `INSERT`, `UPDATE ... WHERE id = ?` and `SELECT ... LIMIT 1` get their
  list-level semantics.
* The GUI handlers of `draw_conversation_ui` / `draw_settings_ui` become a
  `step` function on an `Action` type, one constructor per button / edit.
-/

set_option maxRecDepth 10000

namespace Indexedrag

/-- Rust struct `Message` (src/main.rs lines 12-16): a chat message with a
role string ("user", "assistant", "system") and a content string. -/
structure Message where
  role : String
  content : String
deriving DecidableEq, Repr

/-- Rust struct `Conversation` (src/main.rs lines 18-22): an id (`i64`,
modelled as `Int`) and an ordered list of messages. -/
structure Conversation where
  id : Int
  messages : List Message
deriving DecidableEq, Repr

/-- Rust struct `AppSettings` (src/main.rs lines 24-29): an id (`i64`), the
indexed root paths, and the indexing interval in minutes (`i32`). -/
structure AppSettings where
  id : Int
  root_paths : List String
  index_interval_minutes : Int
deriving DecidableEq, Repr

/-! ## Model of serde_json string escaping

`serde_json` escapes `"` and `\`, writes the named short escapes for
backspace, tab, newline, form feed and carriage return, writes any other
control character below U+0020 as `\u00XX` with lowercase hex digits, and
passes every other character through unchanged. -/

/-- serde_json's escape of one character of a string being serialized. -/
def escChar (c : Char) : List Char :=
  if c = '"' then ['\\', '"']
  else if c = '\\' then ['\\', '\\']
  else if c = Char.ofNat 8 then ['\\', 'b']
  else if c = Char.ofNat 9 then ['\\', 't']
  else if c = Char.ofNat 10 then ['\\', 'n']
  else if c = Char.ofNat 12 then ['\\', 'f']
  else if c = Char.ofNat 13 then ['\\', 'r']
  else if c.toNat < 32 then
    ['\\', 'u', '0', '0', Nat.digitChar (c.toNat / 16), Nat.digitChar (c.toNat % 16)]
  else [c]

/-- Escape a whole character sequence (body of a JSON string literal). -/
def escapeChars : List Char → List Char
  | [] => []
  | c :: cs => escChar c ++ escapeChars cs

/-- serde_json's serialization of a single string: quoted, escaped body. -/
def encStrChars (s : String) : List Char :=
  '"' :: escapeChars s.data ++ ['"']

/-! ## Model of JSON string parsing (the part of `serde_json::from_str`
reached by the canonical encoder output) -/

/-- Value of one hex digit, upper or lower case, as JSON `\uXXXX` allows. -/
def hexVal (c : Char) : Option Nat :=
  if '0' ≤ c ∧ c ≤ '9' then some (c.toNat - '0'.toNat)
  else if 'a' ≤ c ∧ c ≤ 'f' then some (c.toNat - 'a'.toNat + 10)
  else if 'A' ≤ c ∧ c ≤ 'F' then some (c.toNat - 'A'.toNat + 10)
  else none

/-- Resolve a single-character JSON escape (the character after `\`). -/
def unescChar (c : Char) : Option Char :=
  if c = '"' then some '"'
  else if c = '\\' then some '\\'
  else if c = '/' then some '/'
  else if c = 'b' then some (Char.ofNat 8)
  else if c = 'f' then some (Char.ofNat 12)
  else if c = 'n' then some (Char.ofNat 10)
  else if c = 'r' then some (Char.ofNat 13)
  else if c = 't' then some (Char.ofNat 9)
  else none

/-- Parse the four hex digits of a `\uXXXX` escape sequence. -/
def parseU4 (l : List Char) : Option (Char × List Char) :=
  match l with
  | h1 :: h2 :: h3 :: h4 :: rest =>
    (hexVal h1).bind fun a =>
    (hexVal h2).bind fun b =>
    (hexVal h3).bind fun c3 =>
    (hexVal h4).bind fun d =>
    some (Char.ofNat (((a * 16 + b) * 16 + c3) * 16 + d), rest)
  | _ => none

/-- Parse the remainder of a JSON escape sequence (input starts right after
the backslash); returns the decoded character and the rest of the input. -/
def parseEsc (l : List Char) : Option (Char × List Char) :=
  match l with
  | [] => none
  | c :: cs =>
    if c = 'u' then parseU4 cs
    else (unescChar c).map fun ch => (ch, cs)

theorem parseU4_length {l : List Char} {c : Char} {rest : List Char}
    (h : parseU4 l = some (c, rest)) : rest.length + 4 = l.length := by
  match l with
  | [] => simp [parseU4] at h
  | [a] => simp [parseU4] at h
  | [a, b] => simp [parseU4] at h
  | [a, b, c1] => simp [parseU4] at h
  | a :: b :: c1 :: d :: rest' =>
    simp only [parseU4, Option.bind_eq_some, Option.some.injEq, Prod.mk.injEq] at h
    obtain ⟨-, -, -, -, -, -, -, -, -, h2⟩ := h
    subst h2
    simp [List.length_cons]

theorem parseEsc_length {l : List Char} {c : Char} {rest : List Char}
    (h : parseEsc l = some (c, rest)) : rest.length < l.length := by
  match l with
  | [] => simp [parseEsc] at h
  | c0 :: cs =>
    simp only [parseEsc] at h
    split at h
    · have := parseU4_length h
      simp only [List.length_cons]
      omega
    · simp only [Option.map_eq_some'] at h
      obtain ⟨ch, -, h2⟩ := h
      cases h2
      simp only [List.length_cons]
      omega

/-- Parse the body of a JSON string literal (input starts right after the
opening quote); consumes through the closing quote, returning the decoded
characters and the rest of the input. -/
def parseStringBody (l : List Char) : Option (List Char × List Char) :=
  match l with
  | [] => none
  | c :: cs =>
    if c = '"' then some ([], cs)
    else if c = '\\' then
      match h : parseEsc cs with
      | some (ch, rest) =>
        (parseStringBody rest).map fun p => (ch :: p.1, p.2)
      | none => none
    else
      (parseStringBody cs).map fun p => (c :: p.1, p.2)
termination_by l.length
decreasing_by
  · exact Nat.lt_trans (parseEsc_length h) (Nat.lt_succ_self _)
  · exact Nat.lt_succ_self _

theorem hexVal_digitChar : ∀ n < 16, hexVal (Nat.digitChar n) = some n := by decide

theorem parseStringBody_quote (cs : List Char) : parseStringBody ('"' :: cs) = some ([], cs) := by
  simp [parseStringBody]

theorem parseStringBody_backslash {cs : List Char} {ch : Char} {rest : List Char}
    (h : parseEsc cs = some (ch, rest)) :
    parseStringBody ('\\' :: cs) = (parseStringBody rest).map fun p => (ch :: p.1, p.2) := by
  rw [parseStringBody]
  split
  · simp_all
  · split
    · split
      next heq =>
        rw [h] at heq
        cases heq
        rfl
      next heq =>
        rw [h] at heq
        cases heq
    · simp_all

theorem parseStringBody_other {c : Char} (cs : List Char) (h1 : c ≠ '"') (h2 : c ≠ '\\') :
    parseStringBody (c :: cs) = (parseStringBody cs).map fun p => (c :: p.1, p.2) := by
  rw [parseStringBody]
  simp [h1, h2]

/-- Escaping then parsing one character is the identity: the parser, applied
to the escape sequence of `c` followed by anything, consumes exactly the
escape sequence and yields `c`. -/
theorem parseStringBody_escChar (c : Char) (l : List Char) :
    parseStringBody (escChar c ++ l) = (parseStringBody l).map fun p => (c :: p.1, p.2) := by
  by_cases h1 : c = '"'
  · subst h1
    have hpe : parseEsc ('"' :: l) = some ('"', l) := by simp [parseEsc, unescChar]
    simp [escChar, parseStringBody_backslash hpe]
  · by_cases h2 : c = '\\'
    · subst h2
      have hpe : parseEsc ('\\' :: l) = some ('\\', l) := by simp [parseEsc, unescChar]
      simp [escChar, parseStringBody_backslash hpe]
    · by_cases h3 : c = Char.ofNat 8
      · subst h3
        have hpe : parseEsc ('b' :: l) = some (Char.ofNat 8, l) := by
          simp [parseEsc, unescChar]
        simp [escChar, parseStringBody_backslash hpe]
      · by_cases h4 : c = Char.ofNat 9
        · subst h4
          have hpe : parseEsc ('t' :: l) = some (Char.ofNat 9, l) := by
            simp [parseEsc, unescChar]
          simp [escChar, h3, parseStringBody_backslash hpe]
        · by_cases h5 : c = Char.ofNat 10
          · subst h5
            have hpe : parseEsc ('n' :: l) = some (Char.ofNat 10, l) := by
              simp [parseEsc, unescChar]
            simp [escChar, h3, h4, parseStringBody_backslash hpe]
          · by_cases h6 : c = Char.ofNat 12
            · subst h6
              have hpe : parseEsc ('f' :: l) = some (Char.ofNat 12, l) := by
                simp [parseEsc, unescChar]
              simp [escChar, h3, h4, h5, parseStringBody_backslash hpe]
            · by_cases h7 : c = Char.ofNat 13
              · subst h7
                have hpe : parseEsc ('r' :: l) = some (Char.ofNat 13, l) := by
                  simp [parseEsc, unescChar]
                simp [escChar, h3, h4, h5, h6, parseStringBody_backslash hpe]
              · by_cases h8 : c.toNat < 32
                · have hesc : escChar c =
                      ['\\', 'u', '0', '0', Nat.digitChar (c.toNat / 16),
                        Nat.digitChar (c.toNat % 16)] := by
                    simp [escChar, h1, h2, h3, h4, h5, h6, h7, h8]
                  have hhi : hexVal (Nat.digitChar (c.toNat / 16)) = some (c.toNat / 16) :=
                    hexVal_digitChar _ (by omega)
                  have hlo : hexVal (Nat.digitChar (c.toNat % 16)) = some (c.toNat % 16) :=
                    hexVal_digitChar _ (Nat.mod_lt _ (by norm_num))
                  have h0 : hexVal '0' = some 0 := by decide
                  have hpe : parseEsc ('u' :: '0' :: '0' :: Nat.digitChar (c.toNat / 16) ::
                      Nat.digitChar (c.toNat % 16) :: l) = some (c, l) := by
                    simp [parseEsc, parseU4, h0, hhi, hlo]
                    rw [show c.toNat / 16 * 16 + c.toNat % 16 = c.toNat from by omega]
                    exact Char.ofNat_toNat c
                  rw [hesc]
                  simp [parseStringBody_backslash hpe]
                · have hesc : escChar c = [c] := by
                    simp [escChar, h1, h2, h3, h4, h5, h6, h7, h8]
                  rw [hesc]
                  simp [parseStringBody_other _ h1 h2]

/-- Round trip at the level of string bodies: parsing the escaped form of `s`
followed by a closing quote recovers `s` exactly and stops at the quote. -/
theorem parseStringBody_escape (s : List Char) (rest : List Char) :
    parseStringBody (escapeChars s ++ '"' :: rest) = some (s, rest) := by
  induction s with
  | nil => simp [escapeChars, parseStringBody_quote]
  | cons c cs ih =>
    rw [escapeChars, List.append_assoc, parseStringBody_escChar, ih]
    rfl

theorem parseStringBody_length :
    ∀ {l xs r : List Char}, parseStringBody l = some (xs, r) → r.length < l.length := by
  have key : ∀ n : Nat, ∀ l xs r : List Char,
      l.length ≤ n → parseStringBody l = some (xs, r) → r.length < l.length := by
    intro n
    induction n with
    | zero =>
      intro l xs r hlen h
      match l with
      | [] => rw [parseStringBody] at h; cases h
    | succ n ih =>
      intro l xs r hlen h
      match l with
      | [] => rw [parseStringBody] at h; cases h
      | c :: cs =>
        rw [parseStringBody] at h
        split at h
        · cases h
          simp
        · split at h
          · split at h
            next heq =>
              rw [Option.map_eq_some'] at h
              obtain ⟨p, hp, hpe⟩ := h
              cases hpe
              have hr := parseEsc_length heq
              simp only [List.length_cons] at hlen ⊢
              have := ih _ p.1 p.2 (by omega) hp
              omega
            next heq => cases h
          · rw [Option.map_eq_some'] at h
            obtain ⟨p, hp, hpe⟩ := h
            cases hpe
            simp only [List.length_cons] at hlen ⊢
            have := ih cs p.1 p.2 (by omega) hp
            omega
  intro l xs r h
  exact key l.length l xs r le_rfl h

/-! ## JSON arrays of strings: serde_json output for `Vec<String>` and the
part of `serde_json::from_str::<Vec<String>>` reached by it -/

/-- serde_json's compact serialization of a `Vec<String>`: the items,
each a JSON string, joined by commas inside square brackets. -/
def encListChars : List String → List Char
  | [] => []
  | [s] => encStrChars s
  | s :: ss => encStrChars s ++ ',' :: encListChars ss

/-- `serde_json::to_string(&vec_of_strings)` (the `root_paths` column). -/
def encStringList (l : List String) : String :=
  String.mk ('[' :: encListChars l ++ [']'])

/-- Parse one or more comma-separated JSON strings terminated by `]`;
returns the strings and the input after the closing bracket. The `fuel`
argument only bounds the number of items (callers pass the input length,
which always suffices since every item consumes at least one character). -/
def parseStringItems : Nat → List Char → Option (List String × List Char)
  | 0, _ => none
  | _ + 1, [] => none
  | fuel + 1, c :: cs =>
    if c = '"' then
      match parseStringBody cs with
      | some (x, ',' :: r2) =>
        match parseStringItems fuel r2 with
        | some (xs, rr) => some (String.mk x :: xs, rr)
        | none => none
      | some (x, ']' :: r2) => some ([String.mk x], r2)
      | some _ => none
      | none => none
    else none

/-- Model of `serde_json::from_str::<Vec<String>>` on the canonical compact
form: a bracketed, comma-separated list of JSON strings and nothing else.
Inputs outside this form are serde_json errors (`none`). -/
def decStringList (s : String) : Option (List String) :=
  match s.data with
  | '[' :: rest =>
    match rest with
    | ']' :: rest2 => if rest2 = [] then some [] else none
    | _ =>
      match parseStringItems rest.length rest with
      | some (xs, r) => if r = [] then some xs else none
      | none => none
  | _ => none

theorem parseStringItems_enc (ss : List String) (s : String) (rest : List Char)
    (fuel : Nat) (hfuel : ss.length < fuel) :
    parseStringItems fuel (encListChars (s :: ss) ++ ']' :: rest) = some (s :: ss, rest) := by
  induction ss generalizing s fuel rest with
  | nil =>
    match fuel, hfuel with
    | f + 1, _ =>
      have hb := parseStringBody_escape s.data (']' :: rest)
      show parseStringItems (f + 1) (('"' :: (escapeChars s.data ++ ['"'])) ++ ']' :: rest) = _
      simp only [List.cons_append, List.append_assoc, List.nil_append]
      rw [parseStringItems, if_pos rfl, hb]
      rfl
  | cons t ts ih =>
    match fuel, hfuel with
    | f + 1, hfuel =>
      have hb := parseStringBody_escape s.data
        (',' :: (encListChars (t :: ts) ++ ']' :: rest))
      show parseStringItems (f + 1) ((('"' :: (escapeChars s.data ++ ['"'])) ++
          ',' :: encListChars (t :: ts)) ++ ']' :: rest) = _
      simp only [List.cons_append, List.append_assoc, List.nil_append]
      rw [parseStringItems, if_pos rfl, hb]
      show (match parseStringItems f (encListChars (t :: ts) ++ ']' :: rest) with
        | some (xs, rr) => some (String.mk s.data :: xs, rr)
        | none => none) = some (s :: t :: ts, rest)
      rw [ih t rest f (Nat.lt_of_succ_lt_succ hfuel)]

theorem encListChars_length : ∀ l : List String, l.length ≤ (encListChars l).length
  | [] => le_rfl
  | [s] => by
    simp [encListChars, encStrChars]
  | s :: t :: ts => by
    have ih := encListChars_length (t :: ts)
    simp only [encListChars, encStrChars, List.length_append, List.length_cons] at ih ⊢
    omega

theorem encListChars_cons_head (s : String) (ss : List String) :
    ∃ Y, encListChars (s :: ss) = '"' :: Y := by
  cases ss <;> exact ⟨_, rfl⟩

/-- Full JSON round trip for string lists: decoding the serde_json encoding
of any list of strings recovers the list exactly. -/
theorem decStringList_enc (l : List String) : decStringList (encStringList l) = some l := by
  match l with
  | [] => rfl
  | s :: ss =>
    obtain ⟨Y, hY⟩ := encListChars_cons_head s ss
    have e : encStringList (s :: ss) = String.mk ('[' :: '"' :: (Y ++ [']'])) := by
      rw [encStringList, hY]
      rfl
    rw [e]
    show (match parseStringItems ('"' :: (Y ++ [']'])).length ('"' :: (Y ++ [']'])) with
      | some (xs, r) => if r = [] then some xs else none
      | none => none) = some (s :: ss)
    have hY2 : '"' :: (Y ++ [']']) = encListChars (s :: ss) ++ ']' :: [] := by
      rw [hY]
      rfl
    rw [hY2]
    have hbound : ss.length < (encListChars (s :: ss) ++ ']' :: []).length := by
      have := encListChars_length (s :: ss)
      simp only [List.length_append, List.length_cons] at this ⊢
      omega
    rw [parseStringItems_enc ss s [] _ hbound]
    rfl

/-! ## JSON arrays of message objects: serde_json output for `Vec<Message>`
and the part of `serde_json::from_str::<Vec<Message>>` reached by it.
A `Message` serializes as a two-field object, fields in declaration order:
`\x7b"role":"...","content":"..."\x7d`. -/

/-- Expect an exact literal prefix; return the input after it. -/
def dropLit : List Char → List Char → Option (List Char)
  | [], l => some l
  | _ :: _, [] => none
  | p :: ps, c :: cs => if c = p then dropLit ps cs else none

theorem dropLit_append (p l : List Char) : dropLit p (p ++ l) = some l := by
  induction p with
  | nil => rfl
  | cons c cs ih => simp [dropLit, ih]

theorem dropLit_length {p l r : List Char} (h : dropLit p l = some r) :
    r.length + p.length = l.length := by
  induction p generalizing l with
  | nil =>
    cases h
    simp [dropLit]
  | cons c cs ih =>
    match l with
    | [] => simp [dropLit] at h
    | a :: as =>
      rw [dropLit] at h
      split at h
      · have := ih h
        simp only [List.length_cons]
        omega
      · cases h

/-- The object opener and role key of a serialized `Message`, up to and
including the opening quote of the role value. -/
def roleKey : List Char := "\x7b\"role\":\"".data

/-- From after the role value's closing quote up to and including the
opening quote of the content value. -/
def contentKey : List Char := ",\"content\":\"".data

/-- serde_json's serialization of one `Message` struct. -/
def encMessageChars (m : Message) : List Char :=
  roleKey ++ escapeChars m.role.data ++ '"' :: contentKey ++
    escapeChars m.content.data ++ '"' :: ['\x7d']

/-- Parse one serialized `Message` object in the canonical field order. -/
def parseMessage (l : List Char) : Option (Message × List Char) :=
  match dropLit roleKey l with
  | some l1 =>
    match parseStringBody l1 with
    | some (r, l2) =>
      match dropLit contentKey l2 with
      | some l3 =>
        match parseStringBody l3 with
        | some (cnt, l4) =>
          match l4 with
          | '\x7d' :: l5 => some (Message.mk (String.mk r) (String.mk cnt), l5)
          | _ => none
        | none => none
      | none => none
    | none => none
  | none => none

theorem parseMessage_enc (m : Message) (rest : List Char) :
    parseMessage (encMessageChars m ++ rest) = some (m, rest) := by
  have h1 : dropLit roleKey (roleKey ++ (escapeChars m.role.data ++
      '"' :: (contentKey ++ (escapeChars m.content.data ++ '"' :: '\x7d' :: rest))))
      = some (escapeChars m.role.data ++
        '"' :: (contentKey ++ (escapeChars m.content.data ++ '"' :: '\x7d' :: rest))) :=
    dropLit_append _ _
  have h2 := parseStringBody_escape m.role.data
    (contentKey ++ (escapeChars m.content.data ++ '"' :: '\x7d' :: rest))
  have h3 : dropLit contentKey (contentKey ++
      (escapeChars m.content.data ++ '"' :: '\x7d' :: rest))
      = some (escapeChars m.content.data ++ '"' :: '\x7d' :: rest) :=
    dropLit_append _ _
  have h4 := parseStringBody_escape m.content.data ('\x7d' :: rest)
  show parseMessage ((roleKey ++ escapeChars m.role.data ++ '"' :: contentKey ++
      escapeChars m.content.data ++ '"' :: ['\x7d']) ++ rest) = some (m, rest)
  simp only [List.append_assoc, List.cons_append, List.nil_append]
  simp only [parseMessage, h1, h2, h3, h4]

/-- serde_json's compact serialization of the elements of a `Vec<Message>`:
the serialized objects joined by commas. -/
def encMessagesChars : List Message → List Char
  | [] => []
  | [m] => encMessageChars m
  | m :: ms => encMessageChars m ++ ',' :: encMessagesChars ms

/-- `serde_json::to_string(&conversation.messages)` (the `messages` column,
src/main.rs lines 113 and 164). -/
def encodeMessages (ms : List Message) : String :=
  String.mk ('[' :: encMessagesChars ms ++ [']'])

/-- Parse one or more comma-separated message objects terminated by `]`. -/
def parseMessageItems : Nat → List Char → Option (List Message × List Char)
  | 0, _ => none
  | fuel + 1, l =>
    match parseMessage l with
    | some (m, ',' :: r2) =>
      match parseMessageItems fuel r2 with
      | some (ms, rr) => some (m :: ms, rr)
      | none => none
    | some (m, ']' :: r2) => some ([m], r2)
    | some _ => none
    | none => none

/-- Model of `serde_json::from_str::<Vec<Message>>` (src/main.rs line 102) on
the canonical compact form; other inputs are serde_json errors (`none`). -/
def decodeMessages (s : String) : Option (List Message) :=
  match s.data with
  | '[' :: rest =>
    match rest with
    | ']' :: rest2 => if rest2 = [] then some [] else none
    | _ =>
      match parseMessageItems rest.length rest with
      | some (ms, r) => if r = [] then some ms else none
      | none => none
  | _ => none

theorem parseMessageItems_enc (ms : List Message) (m : Message) (rest : List Char)
    (fuel : Nat) (hfuel : ms.length < fuel) :
    parseMessageItems fuel (encMessagesChars (m :: ms) ++ ']' :: rest)
      = some (m :: ms, rest) := by
  induction ms generalizing m fuel rest with
  | nil =>
    match fuel, hfuel with
    | f + 1, _ =>
      have hp := parseMessage_enc m (']' :: rest)
      show parseMessageItems (f + 1) (encMessageChars m ++ ']' :: rest) = _
      rw [parseMessageItems, hp]
      rfl
  | cons t ts ih =>
    match fuel, hfuel with
    | f + 1, hfuel =>
      have hp := parseMessage_enc m (',' :: (encMessagesChars (t :: ts) ++ ']' :: rest))
      show parseMessageItems (f + 1) ((encMessageChars m ++
          ',' :: encMessagesChars (t :: ts)) ++ ']' :: rest) = _
      simp only [List.cons_append, List.append_assoc, List.nil_append]
      rw [parseMessageItems, hp]
      show (match parseMessageItems f (encMessagesChars (t :: ts) ++ ']' :: rest) with
        | some (ms, rr) => some (m :: ms, rr)
        | none => none) = some (m :: t :: ts, rest)
      rw [ih t rest f (Nat.lt_of_succ_lt_succ hfuel)]

theorem encMessageChars_length (m : Message) : 1 ≤ (encMessageChars m).length := by
  simp [encMessageChars, roleKey, List.length_append]

theorem encMessagesChars_length : ∀ l : List Message, l.length ≤ (encMessagesChars l).length
  | [] => le_rfl
  | [m] => by
    have := encMessageChars_length m
    simpa [encMessagesChars] using this
  | m :: t :: ts => by
    have ih := encMessagesChars_length (t :: ts)
    have hm := encMessageChars_length m
    simp only [encMessagesChars, List.length_append, List.length_cons] at ih hm ⊢
    omega

theorem encMessagesChars_cons_ne_bracket (m : Message) (ms : List Message) :
    ∃ Y, encMessagesChars (m :: ms) = '\x7b' :: Y := by
  cases ms <;> exact ⟨_, rfl⟩

/-- Full JSON round trip for message lists: decoding the serde_json encoding
of any list of messages recovers the list exactly. -/
theorem decodeMessages_enc (l : List Message) : decodeMessages (encodeMessages l) = some l := by
  match l with
  | [] => rfl
  | m :: ms =>
    obtain ⟨Y, hY⟩ := encMessagesChars_cons_ne_bracket m ms
    have e : encodeMessages (m :: ms) = String.mk ('[' :: '\x7b' :: (Y ++ [']'])) := by
      rw [encodeMessages, hY]
      rfl
    rw [e]
    show (match parseMessageItems ('\x7b' :: (Y ++ [']'])).length ('\x7b' :: (Y ++ [']'])) with
      | some (ms, r) => if r = [] then some ms else none
      | none => none) = some (m :: ms)
    have hY2 : '\x7b' :: (Y ++ [']']) = encMessagesChars (m :: ms) ++ ']' :: [] := by
      rw [hY]
      rfl
    rw [hY2]
    have hbound : ms.length < (encMessagesChars (m :: ms) ++ ']' :: []).length := by
      have := encMessagesChars_length (m :: ms)
      simp only [List.length_append, List.length_cons] at this ⊢
      omega
    rw [parseMessageItems_enc ms m [] _ hbound]
    rfl

/-! ## The SQLite database model

The database file holds up to two tables. `none` models a table that does
not exist yet (fresh database file); `some rows` models an existing table
with its rows in insertion (rowid) order. `SELECT ... LIMIT 1` without an
ORDER BY returns the first row in that order; `UPDATE ... WHERE id = ?`
rewrites every row whose id matches; `INSERT` appends a row. -/

/-- One row of the `settings` table:
`id INTEGER PRIMARY KEY, root_paths TEXT NOT NULL,
index_interval_minutes INTEGER NOT NULL`. -/
structure SettingsRow where
  id : Int
  root_paths : String
  index_interval_minutes : Int
deriving DecidableEq, Repr

/-- One row of the `conversation` table:
`id INTEGER PRIMARY KEY, messages TEXT NOT NULL`. -/
structure ConvRow where
  id : Int
  messages : String
deriving DecidableEq, Repr

/-- The state of the SQLite database file. -/
structure Db where
  settings : Option (List SettingsRow)
  conversation : Option (List ConvRow)
deriving DecidableEq, Repr

/-- The SQL text executed by `initialize_db` for the settings table
(src/main.rs lines 72-80). -/
def settingsTableSql : String :=
  "CREATE TABLE IF NOT EXISTS settings (
                id INTEGER PRIMARY KEY,
                root_paths TEXT NOT NULL,
                index_interval_minutes INTEGER NOT NULL
            )"

/-- The SQL text executed by `initialize_db` for the conversation table
(src/main.rs lines 82-89). -/
def conversationTableSql : String :=
  "CREATE TABLE IF NOT EXISTS conversation (
                id INTEGER PRIMARY KEY,
                messages TEXT NOT NULL
            )"

/-- Table name of a `CREATE TABLE IF NOT EXISTS` statement: the word after
the fixed prefix, up to the first space or parenthesis. -/
def extractTableName (sql : String) : Option String :=
  match dropLit ("CREATE TABLE IF NOT EXISTS ").data sql.data with
  | some rest => some (String.mk (rest.takeWhile fun c => c != ' ' && c != '('))
  | none => none

/-- `CREATE TABLE IF NOT EXISTS settings (...)`: creates the table only when
absent, never touches an existing table's rows. -/
def createSettingsTable (db : Db) : Db :=
  { db with settings := some (db.settings.getD []) }

/-- `CREATE TABLE IF NOT EXISTS conversation (...)`. -/
def createConversationTable (db : Db) : Db :=
  { db with conversation := some (db.conversation.getD []) }

/-- `initialize_db` (src/main.rs lines 71-90): the two CREATE TABLE
IF NOT EXISTS statements, settings first. -/
def initialize_db (db : Db) : Db :=
  createConversationTable (createSettingsTable db)

/-- The default conversation inserted into an empty table
(src/main.rs lines 106-112). -/
def defaultConversation : Conversation :=
  { id := 1, messages := [{ role := "system", content := "Welcome to Indexedrag!" }] }

/-- The default settings record inserted into an empty table
(src/main.rs lines 144-148). -/
def defaultSettings : AppSettings :=
  { id := 1, root_paths := ["/path/to/somewhere"], index_interval_minutes := 60 }

/-- `load_or_create_default_conversation` (src/main.rs lines 92-123) acting
on the rows of the conversation table: select the first row and decode it
(a JSON decode failure silently becomes an empty message list via
`unwrap_or_else`); if the table is empty, insert the serialized default
with id 1 and return it. Returns the record and the table afterwards. -/
def load_or_create_default_conversation (rows : List ConvRow) :
    Conversation × List ConvRow :=
  match rows with
  | row :: _ => ({ id := row.id, messages := (decodeMessages row.messages).getD [] }, rows)
  | [] =>
    (defaultConversation,
      rows ++ [{ id := defaultConversation.id,
                 messages := encodeMessages defaultConversation.messages }])

/-- `load_or_create_default_settings` (src/main.rs lines 125-161), same
shape as the conversation loader; the interval is stored as an INTEGER
column, no JSON involved. -/
def load_or_create_default_settings (rows : List SettingsRow) :
    AppSettings × List SettingsRow :=
  match rows with
  | row :: _ =>
    ({ id := row.id, root_paths := (decStringList row.root_paths).getD [],
       index_interval_minutes := row.index_interval_minutes }, rows)
  | [] =>
    (defaultSettings,
      rows ++ [{ id := defaultSettings.id,
                 root_paths := encStringList defaultSettings.root_paths,
                 index_interval_minutes := defaultSettings.index_interval_minutes }])

/-- `save_conversation` (src/main.rs lines 163-172):
`UPDATE conversation SET messages = ?1 WHERE id = ?2` with the JSON
serialization of the in-memory messages. -/
def save_conversation (conv : Conversation) (rows : List ConvRow) : List ConvRow :=
  rows.map fun r =>
    if r.id = conv.id then { r with messages := encodeMessages conv.messages } else r

/-- `save_settings` (src/main.rs lines 174-190):
`UPDATE settings SET root_paths = ?1, index_interval_minutes = ?2
WHERE id = ?3`. -/
def save_settings (s : AppSettings) (rows : List SettingsRow) : List SettingsRow :=
  rows.map fun r =>
    if r.id = s.id then
      { r with root_paths := encStringList s.root_paths,
               index_interval_minutes := s.index_interval_minutes }
    else r

/-! ## The application state and the GUI event handlers

`IndexedragApp` mirrors the Rust struct (src/main.rs lines 31-37); the
`conn : Connection` field becomes the database state itself. Each button
click or text-field event of `draw_conversation_ui` / `draw_settings_ui`
becomes one `Action`, and `step` is the corresponding mutation of the
state, exactly as the handler bodies perform it. -/

/-- The Rust struct `IndexedragApp`: the database connection (modelled by
the database state it reaches), the loaded conversation and settings, the
chat input line, and whether the settings window is open. -/
structure IndexedragApp where
  db : Db
  conversation : Conversation
  current_input : String
  settings_open : Bool
  settings : AppSettings
deriving DecidableEq, Repr

/-- The reply string built by `call_llm_api_stub` (src/main.rs line 197):
`format!("(Stub) LLM Response to: '\x7b\x7d'", user_input)`. -/
def stubReply (user_input : String) : String :=
  "(Stub) LLM Response to: '" ++ user_input ++ "'"

/-- `call_llm_api_stub` (src/main.rs lines 193-204): pushes one
assistant-role message holding the simulated reply. -/
def call_llm_api_stub (app : IndexedragApp) (user_input : String) : IndexedragApp :=
  { app with conversation :=
      { app.conversation with messages :=
          app.conversation.messages ++
            [{ role := "assistant", content := stubReply user_input }] } }

/-- `IndexedragApp::new` (src/main.rs lines 40-56) from a given database
file state: initialize the schema, then load or create both records.
(The filesystem side — config directory creation and the database path —
is environment interaction outside the database model.) -/
def IndexedragApp.new (db0 : Db) : IndexedragApp :=
  let db1 := initialize_db db0
  let pc := load_or_create_default_conversation (db1.conversation.getD [])
  let ps := load_or_create_default_settings (db1.settings.getD [])
  { db := { settings := some ps.2, conversation := some pc.2 },
    conversation := pc.1,
    current_input := "",
    settings_open := false,
    settings := ps.1 }

/-- Value of one ASCII decimal digit. -/
def digitVal (c : Char) : Option Nat :=
  if '0' ≤ c ∧ c ≤ '9' then some (c.toNat - '0'.toNat) else none

/-- Accumulate a digit string into a number; `none` on empty input or any
non-digit character. -/
def parseNatDigits (cs : List Char) : Option Nat :=
  if cs = [] then none
  else
    cs.foldl
      (fun acc c =>
        match acc, digitVal c with
        | some a, some d => some (a * 10 + d)
        | _, _ => none)
      (some 0)

/-- Model of Rust's `str::parse::<i32>`: an optional sign followed by one
or more decimal digits, rejecting values outside the i32 range (Rust's
checked arithmetic overflows exactly when the mathematical value does,
since the accumulated value grows monotonically). -/
def parseI32 (s : String) : Option Int :=
  match s.data with
  | '+' :: rest =>
    (parseNatDigits rest).bind fun n =>
      if n ≤ 2147483647 then some (Int.ofNat n) else none
  | '-' :: rest =>
    (parseNatDigits rest).bind fun n =>
      if n ≤ 2147483648 then some (-(Int.ofNat n)) else none
  | rest =>
    (parseNatDigits rest).bind fun n =>
      if n ≤ 2147483647 then some (Int.ofNat n) else none

/-- One GUI event, as handled in `update` / `draw_conversation_ui` /
`draw_settings_ui` (src/main.rs lines 206-320). -/
inductive Action where
  /-- The Send button of the conversation panel (lines 221-231). -/
  | send
  /-- Typing in the chat input line (line 220): the field now holds `s`. -/
  | editInput (s : String)
  /-- The Settings button of the top menu bar (lines 296-298). -/
  | toggleSettings
  /-- Editing the i-th root path text field (line 243): it now holds `s`. -/
  | editPath (i : Nat) (s : String)
  /-- The Remove button next to the i-th root path (lines 244-252). -/
  | removePath (i : Nat)
  /-- The Add Another Path button (lines 254-256). -/
  | addPath
  /-- The interval text field losing focus with text `s` (lines 262-267). -/
  | intervalLostFocus (s : String)
  /-- The Save Settings button (lines 273-276). -/
  | saveSettingsClick
  /-- The Cancel button (lines 278-281). -/
  | cancelClick
deriving DecidableEq, Repr

/-- The Send handler (src/main.rs lines 221-231): push the user message,
call the stub with a clone of the input, clear the input, persist. -/
def sendClicked (app : IndexedragApp) : IndexedragApp :=
  let app1 := { app with conversation :=
      { app.conversation with messages :=
          app.conversation.messages ++
            [{ role := "user", content := app.current_input }] } }
  let app2 := call_llm_api_stub app1 app.current_input
  let app3 := { app2 with current_input := "" }
  let newRows := save_conversation app3.conversation (app3.db.conversation.getD [])
  { app3 with db := { app3.db with conversation := some newRows } }

/-- The Cancel handler (src/main.rs lines 278-281): re-run the settings
loader against the connection and close the window. -/
def cancelClicked (app : IndexedragApp) : IndexedragApp :=
  let p := load_or_create_default_settings (app.db.settings.getD [])
  { app with settings := p.1,
             db := { app.db with settings := some p.2 },
             settings_open := false }

/-- State transition for one GUI event. -/
def step (app : IndexedragApp) : Action → IndexedragApp
  | .send => sendClicked app
  | .editInput s => { app with current_input := s }
  | .toggleSettings => { app with settings_open := !app.settings_open }
  | .editPath i s =>
    { app with settings := { app.settings with root_paths := app.settings.root_paths.set i s } }
  | .removePath i =>
    { app with settings :=
        { app.settings with root_paths := app.settings.root_paths.eraseIdx i } }
  | .addPath =>
    { app with settings :=
        { app.settings with root_paths := app.settings.root_paths ++ [""] } }
  | .intervalLostFocus s =>
    match parseI32 s with
    | some v => { app with settings := { app.settings with index_interval_minutes := v } }
    | none => app
  | .saveSettingsClick =>
    let newRows := save_settings app.settings (app.db.settings.getD [])
    { app with db := { app.db with settings := some newRows }, settings_open := false }
  | .cancelClick => cancelClicked app

/-- A fresh database file: neither table exists yet. -/
def Db.fresh : Db := { settings := none, conversation := none }

/-- Run a sequence of GUI events from the state `IndexedragApp::new`
produces on a fresh database. -/
def runActions (acts : List Action) : IndexedragApp :=
  acts.foldl step (IndexedragApp.new Db.fresh)

/-! ## Error behaviour

Every rusqlite call in the source is wrapped in `.expect(msg)`, which
aborts the process when the call errs. To state that, each operation is
also given in an effectful form over a connection whose underlying calls
may fail (`fail = true` models a database layer returning errors);
`.expect` becomes `expectCall`, which panics with the expect message on
error. The one non-`expect` failure path, `serde_json::from_str(...)
.unwrap_or_else(|_| vec![])` in the two loaders, stays a silent recovery. -/

/-- Result of running code whose `.expect(msg)` calls may abort. -/
inductive PanicOr (α : Type) where
  | panicked (msg : String)
  | ok (a : α)
deriving DecidableEq, Repr

/-- Does the run abort the process? -/
def PanicOr.isPanicked {α : Type} : PanicOr α → Bool
  | .panicked _ => true
  | .ok _ => false

/-- Sequencing: once aborted, nothing further runs. -/
def PanicOr.bind {α β : Type} : PanicOr α → (α → PanicOr β) → PanicOr β
  | .panicked m, _ => .panicked m
  | .ok a, f => f a

/-- An underlying rusqlite (or filesystem) call wrapped in `.expect(msg)`:
on a failing connection the call errs and `.expect` aborts with `msg`;
otherwise it yields `a`. -/
def expectCall {α : Type} (fail : Bool) (msg : String) (a : α) : PanicOr α :=
  if fail then .panicked msg else .ok a

/-- `initialize_db` with its two `.expect`-wrapped `execute` calls. -/
def initialize_dbE (fail : Bool) (db : Db) : PanicOr Db :=
  (expectCall fail "Failed to create settings table" (createSettingsTable db)).bind fun db1 =>
  (expectCall fail "Failed to create conversation table" (createConversationTable db1)).bind
    fun db2 => .ok db2

/-- `load_or_create_default_conversation` with every `.expect` of the
source (lines 93-119) explicit; the `serde_json::from_str` failure is the
`unwrap_or_else` recovery, not an `.expect`. -/
def load_or_create_default_conversationE (fail : Bool) (rows : List ConvRow) :
    PanicOr (Conversation × List ConvRow) :=
  (expectCall fail "Failed to prepare conversation select" ()).bind fun _ =>
  (expectCall fail "Failed to query conversation table" ()).bind fun _ =>
  (expectCall fail "Failed to iterate conversation rows" rows.head?).bind fun first =>
  match first with
  | some row =>
    (expectCall fail "Failed to get conversation id" row.id).bind fun i =>
    (expectCall fail "Failed to get conversation messages" row.messages).bind fun mstr =>
    .ok ({ id := i, messages := (decodeMessages mstr).getD [] }, rows)
  | none =>
    (expectCall fail "Failed to insert default conversation" ()).bind fun _ =>
    .ok (defaultConversation,
      rows ++ [{ id := defaultConversation.id,
                 messages := encodeMessages defaultConversation.messages }])

/-- `load_or_create_default_settings` with every `.expect` of the source
(lines 126-157) explicit. -/
def load_or_create_default_settingsE (fail : Bool) (rows : List SettingsRow) :
    PanicOr (AppSettings × List SettingsRow) :=
  (expectCall fail "Failed to prepare settings select" ()).bind fun _ =>
  (expectCall fail "Failed to query settings table" ()).bind fun _ =>
  (expectCall fail "Failed to iterate settings rows" rows.head?).bind fun first =>
  match first with
  | some row =>
    (expectCall fail "Failed to get settings id" row.id).bind fun i =>
    (expectCall fail "Failed to get root_paths" row.root_paths).bind fun pstr =>
    (expectCall fail "Failed to get index_interval" row.index_interval_minutes).bind fun iv =>
    .ok ({ id := i, root_paths := (decStringList pstr).getD [],
           index_interval_minutes := iv }, rows)
  | none =>
    (expectCall fail "Failed to insert default settings" ()).bind fun _ =>
    .ok (defaultSettings,
      rows ++ [{ id := defaultSettings.id,
                 root_paths := encStringList defaultSettings.root_paths,
                 index_interval_minutes := defaultSettings.index_interval_minutes }])

/-- `save_conversation` with its `.expect`-wrapped `execute`
(`serde_json::to_string` cannot fail on a `Vec<Message>`, so its
`.expect("Failed to serialize messages")` never fires). -/
def save_conversationE (fail : Bool) (conv : Conversation) (rows : List ConvRow) :
    PanicOr (List ConvRow) :=
  (expectCall fail "Failed to update conversation" (save_conversation conv rows)).bind
    fun r => .ok r

/-- `save_settings` with its `.expect`-wrapped `execute`. -/
def save_settingsE (fail : Bool) (s : AppSettings) (rows : List SettingsRow) :
    PanicOr (List SettingsRow) :=
  (expectCall fail "Failed to update settings" (save_settings s rows)).bind
    fun r => .ok r

/-- `IndexedragApp::new` with its `.expect`-wrapped directory creation and
`Connection::open` followed by the effectful bootstrap. -/
def newE (fail : Bool) (db0 : Db) : PanicOr IndexedragApp :=
  (expectCall fail "Could not create config directory" ()).bind fun _ =>
  (expectCall fail "Failed to open DB" ()).bind fun _ =>
  (initialize_dbE fail db0).bind fun db1 =>
  (load_or_create_default_conversationE fail (db1.conversation.getD [])).bind fun pc =>
  (load_or_create_default_settingsE fail (db1.settings.getD [])).bind fun ps =>
  .ok { db := { settings := some ps.2, conversation := some pc.2 },
        conversation := pc.1,
        current_input := "",
        settings_open := false,
        settings := ps.1 }

theorem initialize_dbE_ok (db : Db) : initialize_dbE false db = .ok (initialize_db db) := rfl

theorem load_or_create_default_conversationE_ok (rows : List ConvRow) :
    load_or_create_default_conversationE false rows
      = .ok (load_or_create_default_conversation rows) := by
  cases rows <;> rfl

theorem load_or_create_default_settingsE_ok (rows : List SettingsRow) :
    load_or_create_default_settingsE false rows
      = .ok (load_or_create_default_settings rows) := by
  cases rows <;> rfl

theorem save_conversationE_ok (conv : Conversation) (rows : List ConvRow) :
    save_conversationE false conv rows = .ok (save_conversation conv rows) := rfl

theorem save_settingsE_ok (s : AppSettings) (rows : List SettingsRow) :
    save_settingsE false s rows = .ok (save_settings s rows) := rfl

theorem newE_ok (db0 : Db) : newE false db0 = .ok (IndexedragApp.new db0) := by
  have hc := load_or_create_default_conversationE_ok ((initialize_db db0).conversation.getD [])
  have hs := load_or_create_default_settingsE_ok ((initialize_db db0).settings.getD [])
  simp only [newE, expectCall, if_neg Bool.false_ne_true, PanicOr.bind, initialize_dbE_ok,
    hc, hs]
  rfl

/-! ## Claim theorems -/

/-- C5 counterexample: the stub reply is not one fixed constant string
independent of the input — two different inputs produce two different
appended assistant messages. -/
theorem stub_reply_not_constant :
    (call_llm_api_stub
        { db := Db.fresh, conversation := { id := 1, messages := [] },
          current_input := "", settings_open := false,
          settings := { id := 1, root_paths := [], index_interval_minutes := 60 } }
        "a").conversation.messages ≠
    (call_llm_api_stub
        { db := Db.fresh, conversation := { id := 1, messages := [] },
          current_input := "", settings_open := false,
          settings := { id := 1, root_paths := [], index_interval_minutes := 60 } }
        "b").conversation.messages := by
  decide

/-- C5 (amended): for every user input, `call_llm_api_stub` appends exactly
one assistant-role message whose content is the hard-coded format string
with the user input interpolated: `(Stub) LLM Response to: '<input>'`;
nothing else in the state changes. -/
theorem call_llm_api_stub_appends_reply (app : IndexedragApp) (input : String) :
    (call_llm_api_stub app input).conversation.messages
      = app.conversation.messages ++
        [{ role := "assistant",
           content := "(Stub) LLM Response to: '" ++ input ++ "'" }] ∧
    (call_llm_api_stub app input).conversation.id = app.conversation.id ∧
    (call_llm_api_stub app input).db = app.db ∧
    (call_llm_api_stub app input).current_input = app.current_input ∧
    (call_llm_api_stub app input).settings = app.settings :=
  ⟨rfl, rfl, rfl, rfl, rfl⟩

/-- C8: each Send action appends exactly two messages, in order: a
user-role message holding the current input text, then the assistant-role
stub reply to that text; the previous messages are unchanged and in their
original order (the new list extends the old one), and the input field is
cleared. -/
theorem send_appends_user_then_assistant (app : IndexedragApp) :
    (step app .send).conversation.messages
      = app.conversation.messages ++
        [{ role := "user", content := app.current_input },
         { role := "assistant", content := stubReply app.current_input }] ∧
    (step app .send).current_input = "" ∧
    (step app .send).conversation.id = app.conversation.id := by
  refine ⟨?_, rfl, rfl⟩
  simp [step, sendClicked, call_llm_api_stub]

/-- C10: when the interval text field loses focus, the interval is set to
the parsed value exactly when the text parses as an i32; on any input that
fails to parse, the whole state (in particular `index_interval_minutes`)
is left unchanged. -/
theorem interval_invalid_input_ignored (app : IndexedragApp) (s : String) :
    (parseI32 s = none → step app (.intervalLostFocus s) = app) ∧
    (∀ v, parseI32 s = some v →
      (step app (.intervalLostFocus s)).settings.index_interval_minutes = v ∧
      (step app (.intervalLostFocus s)).settings.root_paths = app.settings.root_paths ∧
      (step app (.intervalLostFocus s)).settings.id = app.settings.id ∧
      (step app (.intervalLostFocus s)).db = app.db) := by
  constructor
  · intro h
    simp [step, h]
  · intro v h
    simp [step, h]

/-- C10 witness: "7x" does not parse, so the interval keeps its value 60;
"42" parses, so the interval becomes 42. -/
theorem interval_invalid_input_ignored_witness :
    (step { db := Db.fresh, conversation := { id := 1, messages := [] },
            current_input := "", settings_open := true,
            settings := { id := 1, root_paths := [], index_interval_minutes := 60 } }
        (.intervalLostFocus "7x"))
      = { db := Db.fresh, conversation := { id := 1, messages := [] },
          current_input := "", settings_open := true,
          settings := { id := 1, root_paths := [], index_interval_minutes := 60 } } ∧
    (step { db := Db.fresh, conversation := { id := 1, messages := [] },
            current_input := "", settings_open := true,
            settings := { id := 1, root_paths := [], index_interval_minutes := 60 } }
        (.intervalLostFocus "42")).settings.index_interval_minutes = 42 :=
  ⟨(interval_invalid_input_ignored _ "7x").1 (by decide),
   ((interval_invalid_input_ignored _ "42").2 42 (by decide)).1⟩

/-- C1: persistence round trip. Saving the in-memory record and then
loading from the same database yields an equal record — same id, same
ordered list — for conversations and for settings alike. (The load reads
the first row and the save updates by id, so the statement carries the
hypothesis, true in every state the application reaches, that the table's
first row bears the record's id.) -/
theorem save_load_round_trip (conv : Conversation) (s : AppSettings)
    (crows : List ConvRow) (srows : List SettingsRow)
    (c0 : ConvRow) (ctl : List ConvRow) (s0 : SettingsRow) (stl : List SettingsRow)
    (hc : crows = c0 :: ctl) (hcid : c0.id = conv.id)
    (hs : srows = s0 :: stl) (hsid : s0.id = s.id) :
    (load_or_create_default_conversation (save_conversation conv crows)).1 = conv ∧
    (load_or_create_default_settings (save_settings s srows)).1 = s := by
  subst hc hs
  constructor
  · simp [save_conversation, load_or_create_default_conversation, hcid,
      decodeMessages_enc]
  · simp [save_settings, load_or_create_default_settings, hsid, decStringList_enc]

/-- C1 witness: the round trip at a concrete conversation and settings
record over concrete singleton tables with matching ids. -/
theorem save_load_round_trip_witness :
    (load_or_create_default_conversation
        (save_conversation { id := 1, messages := [{ role := "user", content := "hi" }] }
          [{ id := 1, messages := "old" }])).1
      = { id := 1, messages := [{ role := "user", content := "hi" }] } ∧
    (load_or_create_default_settings
        (save_settings { id := 1, root_paths := ["/tmp/a", ""], index_interval_minutes := 5 }
          [{ id := 1, root_paths := "old", index_interval_minutes := 60 }])).1
      = { id := 1, root_paths := ["/tmp/a", ""], index_interval_minutes := 5 } :=
  save_load_round_trip _ _ _ _ _ _ _ _ rfl rfl rfl rfl

/-- C3: database bootstrap. `initialize_db` creates a table only when it
does not exist (an existing table keeps exactly its rows; an absent one
becomes an empty table), and each loader inserts its default row exactly
when its table has no rows, otherwise it returns the first existing row
decoded and leaves the table untouched. -/
theorem bootstrap_create_if_absent :
    (∀ db rows, db.settings = some rows → (initialize_db db).settings = some rows) ∧
    (∀ db rows, db.conversation = some rows → (initialize_db db).conversation = some rows) ∧
    (∀ db, db.settings = none → (initialize_db db).settings = some []) ∧
    (∀ db, db.conversation = none → (initialize_db db).conversation = some []) ∧
    (load_or_create_default_conversation []
      = (defaultConversation,
         [{ id := 1, messages := encodeMessages defaultConversation.messages }])) ∧
    (load_or_create_default_settings []
      = (defaultSettings,
         [{ id := 1, root_paths := encStringList defaultSettings.root_paths,
            index_interval_minutes := 60 }])) ∧
    (∀ row tl, load_or_create_default_conversation (row :: tl)
      = ({ id := row.id, messages := (decodeMessages row.messages).getD [] }, row :: tl)) ∧
    (∀ row tl, load_or_create_default_settings (row :: tl)
      = ({ id := row.id, root_paths := (decStringList row.root_paths).getD [],
           index_interval_minutes := row.index_interval_minutes }, row :: tl)) := by
  refine ⟨?_, ?_, ?_, ?_, rfl, rfl, fun row tl => rfl, fun row tl => rfl⟩
  all_goals intro db
  · intro rows h
    simp [initialize_db, createSettingsTable, createConversationTable, h]
  · intro rows h
    simp [initialize_db, createSettingsTable, createConversationTable, h]
  · intro h
    simp [initialize_db, createSettingsTable, createConversationTable, h]
  · intro h
    simp [initialize_db, createSettingsTable, createConversationTable, h]

/-- C3 witness: bootstrap behaviour at concrete tables — an existing
settings table is preserved, an absent conversation table becomes empty,
and the loaders on an empty and on a nonempty table. -/
theorem bootstrap_create_if_absent_witness :
    (initialize_db { settings := some [{ id := 1, root_paths := "[]", index_interval_minutes := 7 }], conversation := none }).settings
      = some [{ id := 1, root_paths := "[]", index_interval_minutes := 7 }] ∧
    (initialize_db { settings := some [{ id := 1, root_paths := "[]", index_interval_minutes := 7 }], conversation := none }).conversation = some [] ∧
    load_or_create_default_conversation [{ id := 3, messages := "zzz" }]
      = ({ id := 3, messages := (decodeMessages "zzz").getD [] },
         [{ id := 3, messages := "zzz" }]) :=
  ⟨bootstrap_create_if_absent.1 _ _ rfl,
   bootstrap_create_if_absent.2.2.2.1 _ rfl,
   bootstrap_create_if_absent.2.2.2.2.2.2.1 _ _⟩

/-- C7: no validation of path strings. Every list of root-path strings —
empty strings and non-paths included — survives a save/load cycle
unchanged and unfiltered, and the settings UI stores any edited string
verbatim at the edited index. -/
theorem paths_never_validated :
    (∀ (s : AppSettings) (rows : List SettingsRow) (r0 : SettingsRow)
        (tl : List SettingsRow), rows = r0 :: tl → r0.id = s.id →
      (load_or_create_default_settings (save_settings s rows)).1.root_paths
        = s.root_paths) ∧
    (∀ (app : IndexedragApp) (i : Nat) (str : String),
      (step app (.editPath i str)).settings.root_paths
        = app.settings.root_paths.set i str) := by
  constructor
  · intro s rows r0 tl hrows hid
    subst hrows
    simp [save_settings, load_or_create_default_settings, hid, decStringList_enc]
  · intro app i str
    rfl

/-- C7 witness: a list holding an empty string, a newline-ridden non-path
and a relative traversal survives the save/load cycle verbatim, and the
UI stores an arbitrary string at index 0. -/
theorem paths_never_validated_witness :
    (load_or_create_default_settings
        (save_settings { id := 1, root_paths := ["", "not a path\n\t", "../../.."],
                         index_interval_minutes := 60 }
          [{ id := 1, root_paths := "x", index_interval_minutes := 1 }])).1.root_paths
      = ["", "not a path\n\t", "../../.."] ∧
    (step { db := Db.fresh, conversation := { id := 1, messages := [] },
            current_input := "", settings_open := true,
            settings := { id := 1, root_paths := ["a"], index_interval_minutes := 60 } }
        (.editPath 0 "###")).settings.root_paths = ["###"] :=
  ⟨paths_never_validated.1 _ _ _ _ rfl rfl,
   by rw [paths_never_validated.2]; rfl⟩

/-- C9: Settings Cancel reverts to the persisted state. When the settings
table has rows (as in every reachable state), clicking Cancel replaces the
in-memory settings with the record the loader reads from the first row,
closes the settings window, and leaves the database — and the rest of the
state — untouched. -/
theorem cancel_reverts_to_persisted (app : IndexedragApp)
    (row : SettingsRow) (tl : List SettingsRow)
    (h : app.db.settings = some (row :: tl)) :
    (step app .cancelClick).settings
      = (load_or_create_default_settings (row :: tl)).1 ∧
    (step app .cancelClick).settings
      = { id := row.id, root_paths := (decStringList row.root_paths).getD [],
          index_interval_minutes := row.index_interval_minutes } ∧
    (step app .cancelClick).settings_open = false ∧
    (step app .cancelClick).db = app.db ∧
    (step app .cancelClick).conversation = app.conversation ∧
    (step app .cancelClick).current_input = app.current_input := by
  refine ⟨?_, ?_, rfl, ?_, rfl, rfl⟩
  · simp [step, cancelClicked, h, load_or_create_default_settings]
  · simp [step, cancelClicked, h, load_or_create_default_settings]
  · simp only [step, cancelClicked]
    rw [h]
    show ({ settings := some (row :: tl), conversation := app.db.conversation } : Db) = app.db
    rw [← h]

/-- C9 witness: Cancel at a concrete state with one persisted settings row
discards the unsaved in-memory edits and reloads the stored row. -/
theorem cancel_reverts_to_persisted_witness :
    (step { db := { settings := some [{ id := 1, root_paths := "[]", index_interval_minutes := 15 }], conversation := some [] },
            conversation := { id := 1, messages := [] },
            current_input := "", settings_open := true,
            settings := { id := 1, root_paths := ["unsaved", "edits"], index_interval_minutes := 999 } }
        .cancelClick).settings
      = { id := 1, root_paths := (decStringList "[]").getD [],
          index_interval_minutes := 15 } :=
  (cancel_reverts_to_persisted _ _ _ rfl).2.1

/-- The singleton-row invariant the application maintains: each table holds
exactly one row, that row has id 1, and both in-memory records carry id 1. -/
def GoodState (app : IndexedragApp) : Prop :=
  (∃ r, app.db.settings = some [r] ∧ r.id = 1) ∧
  (∃ r, app.db.conversation = some [r] ∧ r.id = 1) ∧
  app.settings.id = 1 ∧ app.conversation.id = 1

theorem save_conversation_singleton (conv : Conversation) (r : ConvRow) :
    ∃ r2, save_conversation conv [r] = [r2] ∧ r2.id = r.id := by
  by_cases h : r.id = conv.id
  · refine ⟨{ r with messages := encodeMessages conv.messages }, ?_, rfl⟩
    simp [save_conversation, h]
  · refine ⟨r, ?_, rfl⟩
    simp [save_conversation, h]

theorem save_settings_singleton (s : AppSettings) (r : SettingsRow) :
    ∃ r2, save_settings s [r] = [r2] ∧ r2.id = r.id := by
  by_cases h : r.id = s.id
  · refine ⟨{ r with root_paths := encStringList s.root_paths, index_interval_minutes := s.index_interval_minutes }, ?_, rfl⟩
    simp [save_settings, h]
  · refine ⟨r, ?_, rfl⟩
    simp [save_settings, h]

theorem sendClicked_db (app : IndexedragApp) :
    ∃ conv, (sendClicked app).db
        = { app.db with conversation := some (save_conversation conv (app.db.conversation.getD [])) } ∧
      conv.id = app.conversation.id :=
  ⟨_, rfl, rfl⟩

theorem goodState_new : GoodState (IndexedragApp.new Db.fresh) :=
  ⟨⟨_, rfl, rfl⟩, ⟨_, rfl, rfl⟩, rfl, rfl⟩

theorem goodState_step (app : IndexedragApp) (a : Action) (hg : GoodState app) :
    GoodState (step app a) := by
  obtain ⟨⟨rs, hrs, hrsid⟩, ⟨rc, hrc, hrcid⟩, hsid, hcid⟩ := hg
  cases a with
  | send =>
    obtain ⟨conv, hdb, -⟩ := sendClicked_db app
    refine ⟨⟨rs, ?_, hrsid⟩, ?_, hsid, hcid⟩
    · show (sendClicked app).db.settings = some [rs]
      rw [hdb]
      exact hrs
    · obtain ⟨r2, hr2, hr2id⟩ := save_conversation_singleton conv rc
      refine ⟨r2, ?_, hr2id.trans hrcid⟩
      show (sendClicked app).db.conversation = some [r2]
      rw [hdb]
      show some (save_conversation conv (app.db.conversation.getD [])) = some [r2]
      rw [hrc]
      show some (save_conversation conv [rc]) = some [r2]
      rw [hr2]
  | editInput s => exact ⟨⟨rs, hrs, hrsid⟩, ⟨rc, hrc, hrcid⟩, hsid, hcid⟩
  | toggleSettings => exact ⟨⟨rs, hrs, hrsid⟩, ⟨rc, hrc, hrcid⟩, hsid, hcid⟩
  | editPath i s => exact ⟨⟨rs, hrs, hrsid⟩, ⟨rc, hrc, hrcid⟩, hsid, hcid⟩
  | removePath i => exact ⟨⟨rs, hrs, hrsid⟩, ⟨rc, hrc, hrcid⟩, hsid, hcid⟩
  | addPath => exact ⟨⟨rs, hrs, hrsid⟩, ⟨rc, hrc, hrcid⟩, hsid, hcid⟩
  | intervalLostFocus s =>
    by_cases hp : ∃ v, parseI32 s = some v
    · obtain ⟨v, hv⟩ := hp
      simp only [step, hv]
      exact ⟨⟨rs, hrs, hrsid⟩, ⟨rc, hrc, hrcid⟩, hsid, hcid⟩
    · have hv : parseI32 s = none := by
        cases hpp : parseI32 s with
        | none => rfl
        | some v => exact absurd ⟨v, hpp⟩ hp
      simp only [step, hv]
      exact ⟨⟨rs, hrs, hrsid⟩, ⟨rc, hrc, hrcid⟩, hsid, hcid⟩
  | saveSettingsClick =>
    refine ⟨?_, ⟨rc, hrc, hrcid⟩, hsid, hcid⟩
    obtain ⟨r2, hr2, hr2id⟩ := save_settings_singleton app.settings rs
    refine ⟨r2, ?_, hr2id.trans hrsid⟩
    show some (save_settings app.settings (app.db.settings.getD [])) = some [r2]
    rw [hrs]
    show some (save_settings app.settings [rs]) = some [r2]
    rw [hr2]
  | cancelClick =>
    refine ⟨?_, ⟨rc, hrc, hrcid⟩, ?_, hcid⟩
    · refine ⟨rs, ?_, hrsid⟩
      show some (load_or_create_default_settings (app.db.settings.getD [])).2 = some [rs]
      rw [hrs]
      rfl
    · show (load_or_create_default_settings (app.db.settings.getD [])).1.id = 1
      rw [hrs]
      exact hrsid

theorem goodState_foldl (acts : List Action) :
    ∀ app, GoodState app → GoodState (acts.foldl step app) := by
  induction acts with
  | nil => exact fun _ h => h
  | cons a l ih => exact fun app h => ih _ (goodState_step app a h)

/-- C4: singleton rows with id fixed at creation. In every state the
application reaches from a fresh database — `IndexedragApp::new` followed
by any sequence of GUI events — the settings and conversation tables each
hold at most one row, that row has id 1 (as created), and the in-memory
records keep id 1: no operation changes an id or inserts a further row. -/
theorem singleton_rows_id_one (acts : List Action) :
    (∀ rows, (runActions acts).db.settings = some rows →
      rows.length ≤ 1 ∧ ∀ r ∈ rows, r.id = 1) ∧
    (∀ rows, (runActions acts).db.conversation = some rows →
      rows.length ≤ 1 ∧ ∀ r ∈ rows, r.id = 1) ∧
    (runActions acts).settings.id = 1 ∧
    (runActions acts).conversation.id = 1 := by
  have hg : GoodState (runActions acts) := goodState_foldl acts _ goodState_new
  obtain ⟨⟨rs, hrs, hrsid⟩, ⟨rc, hrc, hrcid⟩, hsid, hcid⟩ := hg
  refine ⟨?_, ?_, hsid, hcid⟩
  · intro rows h
    rw [hrs] at h
    cases h
    exact ⟨by simp, by simpa using hrsid⟩
  · intro rows h
    rw [hrc] at h
    cases h
    exact ⟨by simp, by simpa using hrcid⟩

/-- C4 witness: in the state reached by no GUI events (right after
`IndexedragApp::new` on a fresh database) the settings table is exactly the
one default row with id 1 and the in-memory ids are 1. -/
theorem singleton_rows_id_one_witness :
    ([({ id := 1, root_paths := encStringList defaultSettings.root_paths, index_interval_minutes := 60 } : SettingsRow)].length ≤ 1 ∧
      ∀ r ∈ [({ id := 1, root_paths := encStringList defaultSettings.root_paths, index_interval_minutes := 60 } : SettingsRow)], r.id = 1) ∧
    (runActions []).settings.id = 1 ∧ (runActions []).conversation.id = 1 :=
  ⟨(singleton_rows_id_one []).1 _ rfl,
   (singleton_rows_id_one []).2.2.1,
   (singleton_rows_id_one []).2.2.2⟩

/-- C2 counterexample: not every serialization-step error aborts. The
stored text "oops" is not valid JSON, so `serde_json::from_str` errs
inside `load_or_create_default_conversation`; yet on a healthy connection
the load returns normally with an empty message list instead of aborting
(`unwrap_or_else(|_| vec![])`, src/main.rs line 102). -/
theorem deserialization_error_recovered_not_aborted :
    decodeMessages "oops" = none ∧
    load_or_create_default_conversationE false [{ id := 1, messages := "oops" }]
      = .ok ({ id := 1, messages := [] }, [{ id := 1, messages := "oops" }]) :=
  ⟨rfl, rfl⟩

/-- C2 (amended): every database-call error in new, initialize_db, the two
loaders and the two savers aborts the process at once through `.expect`
with no recovery or retry; JSON encoding on save cannot fail for these
types; but a JSON decoding failure inside either loader is silently
replaced by an empty list instead of aborting. -/
theorem db_errors_abort_decode_errors_recovered :
    (∀ db, (initialize_dbE true db).isPanicked = true) ∧
    (∀ db0, (newE true db0).isPanicked = true) ∧
    (∀ rows, (load_or_create_default_conversationE true rows).isPanicked = true) ∧
    (∀ rows, (load_or_create_default_settingsE true rows).isPanicked = true) ∧
    (∀ conv rows, (save_conversationE true conv rows).isPanicked = true) ∧
    (∀ s rows, (save_settingsE true s rows).isPanicked = true) ∧
    (∀ (rows : List ConvRow) row tl, rows = row :: tl →
      decodeMessages row.messages = none →
      load_or_create_default_conversationE false rows
        = .ok ({ id := row.id, messages := [] }, rows)) ∧
    (∀ (rows : List SettingsRow) row tl, rows = row :: tl →
      decStringList row.root_paths = none →
      load_or_create_default_settingsE false rows
        = .ok ({ id := row.id, root_paths := [],
                 index_interval_minutes := row.index_interval_minutes }, rows)) := by
  refine ⟨fun db => rfl, fun db0 => rfl, fun rows => rfl, fun rows => rfl,
    fun conv rows => rfl, fun s rows => rfl, ?_, ?_⟩
  · intro rows row tl hrows hdec
    subst hrows
    simp [load_or_create_default_conversationE, expectCall, PanicOr.bind, hdec]
  · intro rows row tl hrows hdec
    subst hrows
    simp [load_or_create_default_settingsE, expectCall, PanicOr.bind, hdec]

/-- C2 amended-claim witness: a failing connection aborts initialize_db at
a concrete database, and a concrete row with invalid JSON is recovered to
an empty list by the loader on a healthy connection. -/
theorem db_errors_abort_decode_errors_recovered_witness :
    (initialize_dbE true Db.fresh).isPanicked = true ∧
    load_or_create_default_conversationE false [{ id := 4, messages := "oops" }]
      = .ok ({ id := 4, messages := [] }, [{ id := 4, messages := "oops" }]) :=
  ⟨db_errors_abort_decode_errors_recovered.1 Db.fresh,
   db_errors_abort_decode_errors_recovered.2.2.2.2.2.2.1
     [{ id := 4, messages := "oops" }] { id := 4, messages := "oops" } [] rfl rfl⟩

/-- C6: list-valued fields are stored as JSON-encoded text and the schema
is exactly the two tables named settings and conversation. The two CREATE
statements of `initialize_db` name exactly those tables (and on a fresh
database produce exactly those two, empty); `save_conversation` /
`save_settings` write the serde_json serialization of the message list /
root-path list into the single TEXT column of the updated row; and those
stored texts are genuine JSON encodings — decoding returns the original
list. -/
theorem json_text_columns_two_tables :
    extractTableName settingsTableSql = some "settings" ∧
    extractTableName conversationTableSql = some "conversation" ∧
    initialize_db Db.fresh = { settings := some [], conversation := some [] } ∧
    (∀ conv rows r, r ∈ save_conversation conv rows → r.id = conv.id →
      r.messages = encodeMessages conv.messages) ∧
    (∀ s rows r, r ∈ save_settings s rows → r.id = s.id →
      r.root_paths = encStringList s.root_paths) ∧
    (∀ ms, decodeMessages (encodeMessages ms) = some ms) ∧
    (∀ ps, decStringList (encStringList ps) = some ps) := by
  refine ⟨rfl, rfl, rfl, ?_, ?_, decodeMessages_enc, decStringList_enc⟩
  · intro conv rows r hr hid
    simp only [save_conversation, List.mem_map] at hr
    obtain ⟨orig, -, hform⟩ := hr
    by_cases h : orig.id = conv.id
    · rw [← hform]
      simp [h]
    · rw [← hform] at hid
      simp [h] at hid
  · intro s rows r hr hid
    simp only [save_settings, List.mem_map] at hr
    obtain ⟨orig, -, hform⟩ := hr
    by_cases h : orig.id = s.id
    · rw [← hform]
      simp [h]
    · rw [← hform] at hid
      simp [h] at hid

/-- C6 witness: the updated row of a concrete save carries exactly the
JSON text of the saved list, and decoding a concrete encoding returns the
original list. -/
theorem json_text_columns_two_tables_witness :
    (({ id := 1, messages := encodeMessages [{ role := "user", content := "hi" }] } : ConvRow)).messages
      = encodeMessages [{ role := "user", content := "hi" }] ∧
    decStringList (encStringList ["/a", ""]) = some ["/a", ""] :=
  ⟨json_text_columns_two_tables.2.2.2.1
      { id := 1, messages := [{ role := "user", content := "hi" }] }
      [{ id := 1, messages := "old" }]
      { id := 1, messages := encodeMessages [{ role := "user", content := "hi" }] }
      (by simp [save_conversation]) rfl,
   json_text_columns_two_tables.2.2.2.2.2.2 ["/a", ""]⟩

end Indexedrag
